import Mathlib

/-!
Verification of the format-preserving update engine in
src/skills/pptx-template-updater/scripts/update_template.py.

Shallow embedding choices:
- Text content is modelled as `List Char` (a Python `str` is a sequence of
  characters); error/report messages are Lean `String`s built with `++`.
- The python-pptx document tree (slides, shapes, text frames, paragraphs,
  runs, fonts) is modelled as an immutable tree; in-place mutation becomes
  explicit state passing.
- A Python exception that escapes a function is modelled as `Except.error`;
  exceptions swallowed by a `try/except` stay inside the function.
- python-pptx adapter contract used by the source and modelled here:
  `ColorFormat.type` is `None` for an unset color; `.rgb` is only readable on
  an RGB-type color and `.theme_color` only on a theme-type color (reading
  them on another kind raises `AttributeError`, so `hasattr` is `False`);
  `RGBColor` subclasses `int`, so an all-zero RGB value is falsy; the `rgb`
  setter accepts only an `RGBColor` value and raises `ValueError` otherwise;
  `TextFrame.text` joins paragraph texts with a line feed; `Paragraph.clear`
  removes the runs but keeps the paragraph-level properties (font, level);
  `TextFrame.clear` keeps only the first paragraph and clears its runs;
  list-like collections index Python-style (negative indices count from the
  end, out-of-range raises `IndexError`).
-/

namespace PptxUpdate

/-- One color reference, preserving its kind: unset (`type is None`),
explicit RGB, or theme-linked. -/
inductive ColorSpec
  | unset
  | rgb (v : Nat)
  | theme (v : Nat)
  deriving Repr, DecidableEq

/-- Font properties exposed by the adapter for a run or a paragraph;
`none` / `.unset` means the property is not set at this level. -/
structure Font where
  size : Option Nat := none
  name : Option String := none
  bold : Option Bool := none
  italic : Option Bool := none
  underline : Option Bool := none
  color : ColorSpec := .unset
  deriving Repr, DecidableEq

/-- The smallest unit of styled text within a paragraph. -/
structure Run where
  text : List Char := []
  font : Font := {}
  deriving Repr, DecidableEq

/-- A paragraph: runs, paragraph-level font defaults, and outline level. -/
structure Paragraph where
  runs : List Run := []
  font : Font := {}
  level : Nat := 0
  deriving Repr, DecidableEq

/-- A text frame (the text container of a shape or a table cell). -/
structure TextFrame where
  paragraphs : List Paragraph := []
  deriving Repr, DecidableEq

/-- `paragraph.text`: concatenation of the run texts. -/
def Paragraph.text (p : Paragraph) : List Char :=
  (p.runs.map Run.text).flatten

/-- `text_frame.text`: paragraph texts joined with a line feed. -/
def TextFrame.text (tf : TextFrame) : List Char :=
  List.intercalate ['\n'] (tf.paragraphs.map Paragraph.text)

/-- A table row. -/
structure TableRow where
  cells : List TextFrame
  deriving Repr, DecidableEq

/-- A table: a list of rows of cells. -/
structure Table where
  rows : List TableRow
  deriving Repr, DecidableEq

/-- Closed variant for shape typing: free-text shape, table, or anything
else.  Only text shapes have a text frame (`has_text_frame`). -/
inductive Shape
  | textShape (tf : TextFrame)
  | tableShape (tbl : Table)
  | other
  deriving Repr, DecidableEq

/-- A slide: its shape collection. -/
structure Slide where
  shapes : List Shape
  deriving Repr, DecidableEq

/-- A presentation: its slide collection. -/
structure Pres where
  slides : List Slide
  deriving Repr, DecidableEq

/-- `str.split` on a single line-feed separator, as Python does it:
`splitNl [] = [[]]`, and every `'\n'` starts a new (possibly empty) piece. -/
def splitNl : List Char → List (List Char)
  | [] => [[]]
  | c :: cs =>
    if c = '\n' then [] :: splitNl cs
    else
      match splitNl cs with
      | [] => [[c]]
      | l :: ls => (c :: l) :: ls

/-- Python `'\n' in new_text`. -/
def hasNl (s : List Char) : Bool := s.contains '\n'

/-- Python-style list indexing: negative indices count from the end;
`none` models an `IndexError`. -/
def pyNorm (len : Nat) (i : Int) : Option Nat :=
  if 0 ≤ i then
    if i < (len : Int) then some i.toNat else none
  else
    if 0 ≤ i + (len : Int) then some (i + (len : Int)).toNat else none

/-- Python-style element lookup. -/
def pyIdx (l : List α) (i : Int) : Option α :=
  match pyNorm l.length i with
  | some n => l.get? n
  | none => none

/-- The formatting snapshot captured before mutation (lines 51-56 /
140-145 of the source): each field optional. -/
structure Snapshot where
  size : Option Nat := none
  name : Option String := none
  bold : Option Bool := none
  italic : Option Bool := none
  underline : Option Bool := none
  color : Option ColorSpec := none
  deriving Repr, DecidableEq

/-- Snapshot capture, lines 58-83 and (identical code) 147-172 of the
source: read size/name/bold/italic/underline from the first run of the
first paragraph, read the color only when its type is defined, then for
each of the five non-color fields still `None` fall back to the first
paragraph's own font.  The source has no paragraph fallback for color. -/
def captureSnapshot (tf : TextFrame) : Snapshot :=
  match tf.paragraphs with
  | [] => {}
  | fp :: _ =>
    let fromRun : Snapshot :=
      match fp.runs with
      | [] => {}
      | r :: _ =>
        { size := r.font.size
          name := r.font.name
          bold := r.font.bold
          italic := r.font.italic
          underline := r.font.underline
          color := if r.font.color = ColorSpec.unset then none else some r.font.color }
    { size := fromRun.size.orElse (fun _ => fp.font.size)
      name := fromRun.name.orElse (fun _ => fp.font.name)
      bold := fromRun.bold.orElse (fun _ => fp.font.bold)
      italic := fromRun.italic.orElse (fun _ => fp.font.italic)
      underline := fromRun.underline.orElse (fun _ => fp.font.underline)
      color := fromRun.color }

/-- The spec sentence under test for claim C2, taken at its word: every
field, color included, is read from the first run when available and
falls back to the first paragraph's own font default otherwise. -/
def snapshotSpecC2 (tf : TextFrame) : Snapshot :=
  match tf.paragraphs with
  | [] => {}
  | fp :: _ =>
    let r? := fp.runs.head?
    let paraColor : Option ColorSpec :=
      if fp.font.color = ColorSpec.unset then none else some fp.font.color
    { size := (r?.bind fun r => r.font.size).orElse (fun _ => fp.font.size)
      name := (r?.bind fun r => r.font.name).orElse (fun _ => fp.font.name)
      bold := (r?.bind fun r => r.font.bold).orElse (fun _ => fp.font.bold)
      italic := (r?.bind fun r => r.font.italic).orElse (fun _ => fp.font.italic)
      underline := (r?.bind fun r => r.font.underline).orElse (fun _ => fp.font.underline)
      color := (r?.bind fun r =>
        if r.font.color = ColorSpec.unset then none else some r.font.color).orElse
          (fun _ => paraColor) }

/-- The amended claim C2: the per-field run-to-paragraph fallback holds for
size, typeface name, bold, italic and underline, while the color is
captured only from the first run (when its type is defined) and never
falls back to the paragraph font. -/
def snapshotSpecC2Amended (tf : TextFrame) : Snapshot :=
  match tf.paragraphs with
  | [] => {}
  | fp :: _ =>
    let r? := fp.runs.head?
    { size := (r?.bind fun r => r.font.size).orElse (fun _ => fp.font.size)
      name := (r?.bind fun r => r.font.name).orElse (fun _ => fp.font.name)
      bold := (r?.bind fun r => r.font.bold).orElse (fun _ => fp.font.bold)
      italic := (r?.bind fun r => r.font.italic).orElse (fun _ => fp.font.italic)
      underline := (r?.bind fun r => r.font.underline).orElse (fun _ => fp.font.underline)
      color := r?.bind fun r =>
        if r.font.color = ColorSpec.unset then none else some r.font.color }

/-- Apply the five non-color snapshot fields to a run font, lines 92-101 /
190-199 / 218-227 / 245-254 of the source.  Python truthiness: a size of 0
or an empty name is falsy (`if original_font_size:`), while
bold/italic/underline are applied whenever not `None`. -/
def applyBasicFont (s : Snapshot) (f : Font) : Font :=
  let f := match s.size with
    | some v => if v ≠ 0 then { f with size := some v } else f
    | none => f
  let f := match s.name with
    | some n => if n ≠ "" then { f with name := some n } else f
    | none => f
  let f := match s.bold with
    | some b => { f with bold := some b }
    | none => f
  let f := match s.italic with
    | some b => { f with italic := some b }
    | none => f
  match s.underline with
  | some b => { f with underline := some b }
  | none => f

/-- Best-effort color copy used by the bullet-preserving branch, lines
200-208 / 228-236 of the source: read `.rgb` when accessible and truthy
(RGBColor subclasses `int`, so 0 is falsy) and assign it; otherwise read
`.theme_color` when accessible and assign that; reading either attribute
on the wrong color kind raises `AttributeError`, which `hasattr` absorbs,
and the surrounding `try/except` swallows anything else. -/
def applyColorBestEffort (c : ColorSpec) (f : Font) : Font :=
  match c with
  | .rgb v => if v ≠ 0 then { f with color := .rgb v } else f
  | .theme v => { f with color := .theme v }
  | .unset => f

/-- Message of the `ValueError` raised by python-pptx's `ColorFormat.rgb`
setter when handed a value that is not an `RGBColor` — which is what lines
103 and 256 of the source do: they assign the captured `ColorFormat`
object itself to `run.font.color.rgb`. -/
def rgbSetterTypeError : String := "assigned value must be type RGBColor"

/-- Message of an uncaught Python `IndexError`. -/
def indexErrorMsg : String := "list index out of range"

/-- Message of the uncaught Python `TypeError` raised when an instruction's
slide or shape field is missing or not an integer and the source compares
it with `<` (lines 286 / 295). -/
def typeErrorMsg : String := "TypeError"

/-- Per-update result of `update_shape_text` (the dict built at lines
125 / 128-135 / 258-259). -/
structure ShapeResult where
  success : Bool
  error : Option String := none
  warnings : List String := []
  original_length : Option Nat := none
  new_length : Option Nat := none
  deriving Repr, DecidableEq

/-- The overflow warning text, lines 131-135. -/
def overflowWarning (newLen origLen : Nat) : String :=
  "New text (" ++ toString newLen ++ " chars) is significantly longer than original ("
    ++ toString origLen ++ " chars). May overflow shape."

/-- Font given to a new run in the bullet-preserving branch: snapshot
basics plus the best-effort color copy. -/
def bulletRunFont (snap : Snapshot) : Font :=
  let f := applyBasicFont snap {}
  match snap.color with
  | some c => applyColorBestEffort c f
  | none => f

/-- The paragraph built for one extra line in the bullet-preserving
branch: a fresh paragraph with a single run carrying the line's text, the
snapshot-derived run font, and the copied outline level. -/
def bulletPara (snap : Snapshot) (lvl : Nat) (line : List Char) : Paragraph :=
  { runs := [{ text := line, font := bulletRunFont snap }], font := {}, level := lvl }

/-- One iteration of the loop at lines 211-236: `add_paragraph`, add a run
with the line's text, copy the level from `text_frame.paragraphs[0]`
(which exists whenever this loop runs), apply the snapshot. -/
def addBulletLine (snap : Snapshot) (tf : TextFrame) (line : List Char) : TextFrame :=
  let lvl := match tf.paragraphs with
    | [] => 0
    | fp :: _ => fp.level
  { paragraphs := tf.paragraphs ++ [bulletPara snap lvl line] }

/-- Lines 185-208: clear the first paragraph (runs removed, paragraph
properties kept), add one run with the first line, apply the snapshot with
the best-effort color copy. -/
def rewriteFirstBullet (snap : Snapshot) (fp : Paragraph) (line : List Char) : Paragraph :=
  { fp with runs := [{ text := line, font := bulletRunFont snap }] }

/-- Lines 240-256, the single-paragraph branch: clear the first paragraph,
add one run with the whole new text, apply the basic snapshot fields; then
line 256 assigns the captured `ColorFormat` object itself to
`run.font.color.rgb` with no `try/except`, so whenever a color was
captured the setter's `ValueError` escapes (second component `some e`). -/
def rewriteFirstSingle (snap : Snapshot) (fp : Paragraph) (new_text : List Char) :
    Paragraph × Option String :=
  let fp' := { fp with runs := [{ text := new_text, font := applyBasicFont snap {} }] }
  match snap.color with
  | some _ => (fp', some rgbSetterTypeError)
  | none => (fp', none)

/-- `update_shape_text` restricted to the text frame it mutates, lines
127-260 of the source.  Returns the mutated frame (mutation happens
in place in Python, so it persists even when an exception escapes)
together with either the result dict or the escaped exception. -/
def updateTextFrame (tf : TextFrame) (new_text : List Char) (preserve_bullets : Bool) :
    TextFrame × Except String ShapeResult :=
  let original_length := tf.text.length
  let warnings :=
    if 2 * new_text.length > 3 * original_length then
      [overflowWarning new_text.length original_length]
    else []
  let snap := captureSnapshot tf
  if preserve_bullets && hasNl new_text then
    let lines := splitNl new_text
    match tf.paragraphs.take 1 with
    | [] => (tf, .error indexErrorMsg)
    | fp :: _ =>
      let fp' := rewriteFirstBullet snap fp (lines.headD [])
      let tf' := (lines.drop 1).foldl (addBulletLine snap) { paragraphs := [fp'] }
      (tf', .ok { success := true, warnings := warnings,
                  original_length := some original_length,
                  new_length := some new_text.length })
  else
    match tf.paragraphs with
    | [] => (tf, .error indexErrorMsg)
    | fp :: rest =>
      match rewriteFirstSingle snap fp new_text with
      | (fp', some e) => ({ paragraphs := fp' :: rest }, .error e)
      | (fp', none) =>
        ({ paragraphs := fp' :: rest },
         .ok { success := true, warnings := warnings,
               original_length := some original_length,
               new_length := some new_text.length })

/-- `update_shape_text`, lines 111-260: the guard at lines 124-125 returns
the failure dict for any shape without a text frame. -/
def update_shape_text (shape : Shape) (new_text : List Char) (preserve_bullets : Bool) :
    Shape × Except String ShapeResult :=
  match shape with
  | .textShape tf =>
    match updateTextFrame tf new_text preserve_bullets with
    | (tf', r) => (.textShape tf', r)
  | s => (s, .ok { success := false, error := some "Shape has no text frame" })

/-- Per-cell result of `update_table_cell` (lines 105-108). -/
structure CellResult where
  success : Bool
  cell : String
  error : Option String := none
  deriving Repr, DecidableEq

/-- The `f"({row},{col})"` cell descriptor. -/
def cellRef (row col : Int) : String :=
  "(" ++ toString row ++ "," ++ toString col ++ ")"

/-- Replace one cell's text frame, Python-style indices. -/
def setCellTf (tbl : Table) (row col : Int) (tf : TextFrame) : Table :=
  match pyNorm tbl.rows.length row with
  | none => tbl
  | some r =>
    let trow := tbl.rows.getD r { cells := [] }
    match pyNorm trow.cells.length col with
    | none => tbl
    | some c =>
      { rows := tbl.rows.set r { cells := trow.cells.set c tf } }

/-- `update_table_cell`, lines 33-108.  The whole body runs inside one
`try/except`, so every failure is returned as a result, never raised:
a bad index fails before any mutation; a captured color fails at line 103
(the `ColorFormat` object is assigned to the `rgb` setter) after the text
was already replaced, so the mutation persists in the failure result. -/
def update_table_cell (tbl : Table) (row col : Int) (new_text : List Char) :
    Table × CellResult :=
  match pyIdx tbl.rows row with
  | none => (tbl, { success := false, cell := cellRef row col, error := some indexErrorMsg })
  | some trow =>
    match pyIdx trow.cells col with
    | none => (tbl, { success := false, cell := cellRef row col, error := some indexErrorMsg })
    | some tf =>
      let snap := captureSnapshot tf
      match tf.paragraphs with
      | [] => (tbl, { success := false, cell := cellRef row col, error := some indexErrorMsg })
      | fp :: _ =>
        let fp' := { fp with runs := [{ text := new_text, font := applyBasicFont snap {} }] }
        let tbl' := setCellTf tbl row col { paragraphs := [fp'] }
        match snap.color with
        | some _ =>
          (tbl', { success := false, cell := cellRef row col, error := some rgbSetterTypeError })
        | none => (tbl', { success := true, cell := cellRef row col })

/-- The running report of `apply_updates` (line 276). -/
structure Report where
  updates_applied : Nat := 0
  errors : List String := []
  warnings : List String := []
  deriving Repr, DecidableEq

/-- Component-wise accumulation of a report delta; `apply_updates` only
ever increments the counter and appends to the two lists. -/
def Report.add (r d : Report) : Report :=
  { updates_applied := r.updates_applied + d.updates_applied
    errors := r.errors ++ d.errors
    warnings := r.warnings ++ d.warnings }

/-- Error message of lines 287-289. -/
def slideErrMsg (slide_num : Int) (n : Nat) : String :=
  "Invalid slide number: " ++ toString slide_num ++ ". Template has "
    ++ toString n ++ " slides."

/-- Error message of lines 296-299. -/
def shapeErrMsg (shape_idx slide_num : Int) (n : Nat) : String :=
  "Invalid shape index: " ++ toString shape_idx ++ " on slide "
    ++ toString slide_num ++ ". Slide has " ++ toString n ++ " shapes."

/-- The `"Slide N, Shape M: ..."` qualifier used at lines 334-340. -/
def shapeQualMsg (slide_num shape_idx : Int) (msg : String) : String :=
  "Slide " ++ toString slide_num ++ ", Shape " ++ toString shape_idx ++ ": " ++ msg

/-- The per-cell error message of lines 318-320; Python formats a missing
error value as `None`. -/
def cellErrMsg (slide_num shape_idx : Int) (cr : CellResult) : String :=
  let e := cr.error.getD "None"
  "Slide " ++ toString slide_num ++ ", Shape " ++ toString shape_idx
    ++ ", Cell " ++ cr.cell ++ ": " ++ e

/-- One update instruction as read by lines 279-283; the slide and shape
fields come from `update.get` and may be absent or non-integer. -/
inductive JVal
  | int (n : Int)
  | null
  | str (s : String)
  deriving Repr, DecidableEq

/-- The only JSON values that compare against an `int` without a
`TypeError` in Python 3. -/
def JVal.toInt? : JVal → Option Int
  | .int n => some n
  | _ => none

/-- A `table_cells` entry (lines 308-311). -/
structure CellUpdate where
  row : Int
  col : Int
  text : List Char := []
  deriving Repr, DecidableEq

/-- An update instruction with the defaults of lines 279-283. -/
structure Instr where
  slide : JVal
  shape : JVal
  text : List Char := []
  preserve_bullets : Bool := true
  table_cells : List CellUpdate := []
  deriving Repr, DecidableEq

/-- Write a shape back into the presentation tree (the Python tree is
mutated in place through aliasing). -/
def Pres.setShape (p : Pres) (si shi : Nat) (s : Shape) : Pres :=
  let slide := p.slides.getD si { shapes := [] }
  { slides := p.slides.set si { shapes := slide.shapes.set shi s } }

/-- The per-cell loop of lines 308-320: each cell is updated in turn, a
success increments `updates_applied`, a failure appends one error naming
the cell, and the loop always continues with the next cell. -/
def processCells (slide_num shape_idx : Int) :
    Table → Report → List CellUpdate → Table × Report
  | tbl, r, [] => (tbl, r)
  | tbl, r, cu :: rest =>
    match update_table_cell tbl cu.row cu.col cu.text with
    | (tbl', cres) =>
      let r' :=
        if cres.success then { r with updates_applied := r.updates_applied + 1 }
        else { r with errors := r.errors ++ [cellErrMsg slide_num shape_idx cres] }
      processCells slide_num shape_idx tbl' r' rest

/-- The body of the `for update in ...` loop, lines 279-340, for one
instruction.  `Except.error` models an uncaught Python exception (which
aborts the whole batch): a missing or non-integer slide/shape field raises
`TypeError` at the `<` comparison, and an exception escaping
`update_shape_text` propagates. -/
def processInstr (p : Pres) (r : Report) (u : Instr) : Except String (Pres × Report) :=
  match u.slide.toInt? with
  | none => .error typeErrorMsg
  | some slide_num =>
    if slide_num < 1 ∨ (p.slides.length : Int) < slide_num then
      .ok (p, { r with errors := r.errors ++ [slideErrMsg slide_num p.slides.length] })
    else
      match p.slides.get? (slide_num - 1).toNat with
      | none => .error indexErrorMsg
      | some slide =>
        match u.shape.toInt? with
        | none => .error typeErrorMsg
        | some shape_idx =>
          if shape_idx < 1 ∨ (slide.shapes.length : Int) < shape_idx then
            .ok (p, { r with errors :=
              r.errors ++ [shapeErrMsg shape_idx slide_num slide.shapes.length] })
          else
            match slide.shapes.get? (shape_idx - 1).toNat with
            | none => .error indexErrorMsg
            | some shape =>
              match shape, u.table_cells with
              | .tableShape tbl, cu :: cus =>
                match processCells slide_num shape_idx tbl r (cu :: cus) with
                | (tbl', r') =>
                  .ok (p.setShape (slide_num - 1).toNat (shape_idx - 1).toNat
                        (.tableShape tbl'), r')
              | sh, _ =>
                match update_shape_text sh u.text u.preserve_bullets with
                | (_, .error e) => .error e
                | (shape', .ok res) =>
                  let p' := p.setShape (slide_num - 1).toNat (shape_idx - 1).toNat shape'
                  if res.success then
                    .ok (p', { r with
                      updates_applied := r.updates_applied + 1,
                      warnings := r.warnings ++
                        res.warnings.map (shapeQualMsg slide_num shape_idx) })
                  else
                    .ok (p', { r with errors :=
                      r.errors ++ [shapeQualMsg slide_num shape_idx (res.error.getD "None")] })

/-- The instruction loop of `apply_updates`, lines 278-340. -/
def applyLoop (p : Pres) (r : Report) : List Instr → Except String (Pres × Report)
  | [] => .ok (p, r)
  | u :: rest =>
    match processInstr p r u with
    | .error e => .error e
    | .ok (p', r') => applyLoop p' r' rest

/-- `apply_updates`, lines 263-346, minus the file I/O: apply every
instruction in order to the in-memory tree and return the final tree and
report (the source then saves the tree once, after the whole batch). -/
def apply_updates (p : Pres) (updates : List Instr) : Except String (Pres × Report) :=
  applyLoop p {} updates

/-- Shape-count skeleton of a presentation; instruction processing never
adds or removes slides or shapes, so validation against the original
presentation stays meaningful mid-batch. -/
def skel (p : Pres) : List Nat :=
  p.slides.map fun s => s.shapes.length

/-- Claim C4's hypothesis, read off lines 285-300: the instruction carries
integer indices and either the slide index is out of `[1, slide_count]`
(with the corresponding message), or the slide resolves and the shape
index is out of `[1, shape_count_on_slide]`. -/
def OutOfRangeMsg (p : Pres) (u : Instr) (m : String) : Prop :=
  (∃ s, u.slide = JVal.int s ∧ (s < 1 ∨ (p.slides.length : Int) < s) ∧
    m = slideErrMsg s p.slides.length) ∨
  (∃ s k slide, u.slide = JVal.int s ∧ ¬(s < 1 ∨ (p.slides.length : Int) < s) ∧
    p.slides.get? (s - 1).toNat = some slide ∧ u.shape = JVal.int k ∧
    (k < 1 ∨ (slide.shapes.length : Int) < k) ∧
    m = shapeErrMsg k s slide.shapes.length)

/-! ### Concrete inputs used by witnesses and counterexamples -/

/-- A shape text frame with one paragraph (outline level 1, one run). -/
def tfW1 : TextFrame :=
  { paragraphs := [{ runs := [{ text := "Old".data }], level := 1 }] }

/-- A text frame whose first paragraph has no runs but a paragraph-level
font color: the input separating the snapshot code from claim C2. -/
def tfC2 : TextFrame :=
  { paragraphs := [{ runs := [], font := { color := .rgb 5 } }] }

/-- A text frame whose first run carries a defined (RGB) color. -/
def tfC3 : TextFrame :=
  { paragraphs := [{ runs := [{ text := "Old".data, font := { color := .rgb 9 } }] }] }

/-- One slide with no shapes. -/
def pW4 : Pres := { slides := [{ shapes := [] }] }

/-- An instruction addressing slide 5 of a one-slide presentation. -/
def uW4 : Instr := { slide := .int 5, shape := .int 1 }

/-- A text frame whose extracted text has length 10. -/
def tfW5 : TextFrame :=
  { paragraphs := [{ runs := [{ text := "0123456789".data }] }] }

/-- 16 characters: strictly more than 1.5 times the original 10. -/
def newW5 : List Char := "0123456789123456".data

/-- The frame produced by the single-paragraph update of `tfW5`. -/
def tfW5out : TextFrame :=
  { paragraphs := [{ runs := [{ text := newW5 }] }] }

/-- The result dict of that update. -/
def resW5 : ShapeResult :=
  { success := true, warnings := [overflowWarning 16 10],
    original_length := some 10, new_length := some 16 }

/-- A one-row, one-column table with an empty, uncolored cell. -/
def tblW6 : Table :=
  { rows := [{ cells := [{ paragraphs := [{ runs := [] }] }] }] }

/-- A cell update addressing column 5 of the one-column table. -/
def cuBad : CellUpdate := { row := 0, col := 5, text := "x".data }

/-- A valid cell update for the same table. -/
def cuGood : CellUpdate := { row := 0, col := 0, text := "y".data }

/-- A frame with two paragraphs, to watch the trailing one. -/
def tfW7 : TextFrame :=
  { paragraphs := [{ runs := [{ text := "One".data }] },
                   { runs := [{ text := "Two".data }], level := 3 }] }

/-- One slide holding one non-text shape. -/
def pC9 : Pres := { slides := [{ shapes := [Shape.other] }] }

/-- An instruction whose slide field is missing (`update.get` gave
`None`). -/
def uBadC9 : Instr := { slide := .null, shape := .int 1 }

/-- A well-formed instruction for the same presentation. -/
def uGoodC9 : Instr := { slide := .int 1, shape := .int 1 }

/-- One slide holding one table shape. -/
def pW10 : Pres := { slides := [{ shapes := [Shape.tableShape { rows := [] }] }] }

/-- An instruction addressing the table shape with no `table_cells`. -/
def uW10 : Instr := { slide := .int 1, shape := .int 1 }

/-! ### List helper lemmas -/

theorem list_map_set (f : α → β) :
    ∀ (l : List α) (n : Nat) (a : α), (l.set n a).map f = (l.map f).set n (f a) := by
  intro l
  induction l with
  | nil => intro n a; rfl
  | cons x xs ih =>
    intro n a
    cases n with
    | zero => rfl
    | succ n => simp [List.set, ih]

theorem list_set_getD_self :
    ∀ (l : List α) (n : Nat) (d : α), l.set n (l.getD n d) = l := by
  intro l
  induction l with
  | nil => intro n d; rfl
  | cons x xs ih =>
    intro n d
    cases n with
    | zero => rfl
    | succ n =>
      have := ih n d
      simp only [List.getD_cons_succ, List.set_cons_succ, this]

theorem list_getD_map (f : α → β) :
    ∀ (l : List α) (n : Nat) (d : α), (l.map f).getD n (f d) = f (l.getD n d) := by
  intro l
  induction l with
  | nil => intro n d; rfl
  | cons x xs ih =>
    intro n d
    cases n with
    | zero => rfl
    | succ n =>
      have := ih n d
      simp only [List.map_cons, List.getD_cons_succ, this]

/-! ### Lemmas about the paragraph reconstructor -/

theorem splitNl_exists_cons (cs : List Char) : ∃ l ls, splitNl cs = l :: ls := by
  induction cs with
  | nil => exact ⟨[], [], rfl⟩
  | cons c cs ih =>
    by_cases h : c = '\n'
    · exact ⟨[], splitNl cs, by simp [splitNl, h]⟩
    · obtain ⟨l, ls, hl⟩ := ih
      exact ⟨c :: l, ls, by simp [splitNl, h, hl]⟩

theorem foldl_addBulletLine (snap : Snapshot) (ls : List (List Char)) :
    ∀ (fp : Paragraph) (ps : List Paragraph),
      ((ls.foldl (addBulletLine snap) { paragraphs := fp :: ps }).paragraphs)
        = fp :: (ps ++ ls.map (bulletPara snap fp.level)) := by
  induction ls with
  | nil => intro fp ps; simp
  | cons l ls ih =>
    intro fp ps
    have h1 : addBulletLine snap { paragraphs := fp :: ps } l
        = { paragraphs := fp :: (ps ++ [bulletPara snap fp.level l]) } := by
      simp [addBulletLine]
    rw [List.foldl_cons, h1, ih]
    simp

theorem updateTextFrame_empty (tf : TextFrame) (t : List Char) (pb : Bool)
    (hp : tf.paragraphs = []) : (updateTextFrame tf t pb).1 = tf := by
  unfold updateTextFrame
  by_cases hc : (pb && hasNl t) = true <;> simp [hc, hp]

theorem updateTextFrame_single (tf : TextFrame) (t : List Char) (pb : Bool)
    (fp : Paragraph) (rest : List Paragraph)
    (hp : tf.paragraphs = fp :: rest) (hc : (pb && hasNl t) = false) :
    (updateTextFrame tf t pb).1 =
      { paragraphs :=
          { fp with runs := [{ text := t, font := applyBasicFont (captureSnapshot tf) {} }] }
            :: rest } := by
  unfold updateTextFrame rewriteFirstSingle
  cases hcol : (captureSnapshot tf).color <;> simp [hc, hp, hcol]

theorem updateTextFrame_bullet (tf : TextFrame) (t : List Char) (pb : Bool)
    (fp : Paragraph) (rest : List Paragraph) (l0 : List Char) (ls : List (List Char))
    (hp : tf.paragraphs = fp :: rest) (hc : (pb && hasNl t) = true)
    (hs : splitNl t = l0 :: ls) :
    (updateTextFrame tf t pb).1.paragraphs =
      rewriteFirstBullet (captureSnapshot tf) fp l0
        :: ls.map (bulletPara (captureSnapshot tf) fp.level) := by
  unfold updateTextFrame
  simp only [hc, hp, hs, if_true, List.take_succ_cons, List.take_zero, List.headD_cons,
    List.drop_succ_cons, List.drop_zero]
  rw [foldl_addBulletLine]
  simp [rewriteFirstBullet]

theorem text_bulletPara (snap : Snapshot) (lvl : Nat) (l : List Char) :
    (bulletPara snap lvl l).text = l := by
  simp [bulletPara, Paragraph.text]

theorem text_rewriteFirstBullet (snap : Snapshot) (fp : Paragraph) (l : List Char) :
    (rewriteFirstBullet snap fp l).text = l := by
  simp [rewriteFirstBullet, Paragraph.text]

theorem text_singleRunPara (fp : Paragraph) (t : List Char) (f : Font) :
    Paragraph.text { fp with runs := [{ text := t, font := f }] } = t := by
  simp [Paragraph.text]

/-- The paragraph texts after an update on a nonempty frame: the split
lines in bullet mode, the new text followed by the untouched trailing
paragraph texts otherwise. -/
theorem update_paragraph_texts (tf : TextFrame) (t : List Char) (pb : Bool)
    (fp : Paragraph) (rest : List Paragraph) (hp : tf.paragraphs = fp :: rest) :
    ((updateTextFrame tf t pb).1.paragraphs.map Paragraph.text) =
      if pb && hasNl t then splitNl t else t :: rest.map Paragraph.text := by
  cases hc : pb && hasNl t with
  | true =>
    obtain ⟨l0, ls, hs⟩ := splitNl_exists_cons t
    rw [updateTextFrame_bullet tf t pb fp rest l0 ls hp hc hs]
    simp [hs, text_rewriteFirstBullet, text_bulletPara, Function.comp_def]
  | false =>
    rw [updateTextFrame_single tf t pb fp rest hp hc]
    simp [text_singleRunPara]

/-! ### Claim theorems -/

/-- C1: with `preserve_bullets` true and a line break in the new text, the
reconstructor replaces the region with exactly one paragraph per line of
the split text, each holding a single run with that line, and every
paragraph after the first carries the level of the reconstructed first
paragraph. -/
theorem bullet_mode_reconstruction (tf : TextFrame) (fp : Paragraph)
    (rest : List Paragraph) (new_text : List Char)
    (hp : tf.paragraphs = fp :: rest) (hn : hasNl new_text = true) :
    ∃ fp2 tl, (updateTextFrame tf new_text true).1.paragraphs = fp2 :: tl ∧
      ((fp2 :: tl).map fun q => q.runs.map Run.text)
        = (splitNl new_text).map (fun l => [l]) ∧
      ∀ q ∈ tl, q.level = fp2.level := by
  obtain ⟨l0, ls, hs⟩ := splitNl_exists_cons new_text
  have hc : (true && hasNl new_text) = true := by simp [hn]
  refine ⟨_, _, updateTextFrame_bullet tf new_text true fp rest l0 ls hp hc hs, ?_, ?_⟩
  · simp [hs, rewriteFirstBullet, bulletPara, Function.comp_def]
  · intro q hq
    simp only [List.mem_map] at hq
    obtain ⟨l, _, rfl⟩ := hq
    rfl

/-- Witness for C1: the spec's own example, `"A\nB\nC"` on a one-paragraph
shape. -/
theorem bullet_mode_reconstruction_witness :
    tfW1.paragraphs = { runs := [{ text := "Old".data }], level := 1 } :: [] ∧
    hasNl "A\nB\nC".data = true ∧
    (∃ fp2 tl, (updateTextFrame tfW1 "A\nB\nC".data true).1.paragraphs = fp2 :: tl ∧
      ((fp2 :: tl).map fun q => q.runs.map Run.text)
        = (splitNl "A\nB\nC".data).map (fun l => [l]) ∧
      ∀ q ∈ tl, q.level = fp2.level) :=
  ⟨rfl, rfl, bullet_mode_reconstruction tfW1 _ [] _ rfl rfl⟩

/-- C2 counterexample: on a region whose first paragraph has no runs but a
paragraph-level font color, the code's snapshot leaves the color absent,
while the claim's per-field fallback (which includes color) would capture
the paragraph color. -/
theorem snapshot_color_fallback_counterexample :
    captureSnapshot tfC2 ≠ snapshotSpecC2 tfC2 ∧
    (captureSnapshot tfC2).color = none ∧
    (snapshotSpecC2 tfC2).color = some (ColorSpec.rgb 5) := by
  refine ⟨?_, rfl, rfl⟩
  decide

/-- C2 amended: the run-to-paragraph per-field fallback holds for size,
name, bold, italic and underline; the color is captured from the first run
only (when its type is defined) and never falls back to the paragraph
font. -/
theorem snapshot_fallback_amended (tf : TextFrame) :
    captureSnapshot tf = snapshotSpecC2Amended tf := by
  cases h : tf.paragraphs with
  | nil => simp [captureSnapshot, snapshotSpecC2Amended, h]
  | cons fp rest =>
    cases hr : fp.runs with
    | nil => simp [captureSnapshot, snapshotSpecC2Amended, h, hr]
    | cons r rs => simp [captureSnapshot, snapshotSpecC2Amended, h, hr]

/-- C3 (code bug): in single-paragraph mode the captured color object is
assigned to the run's `rgb` property with no exception handling, so the
setter's `ValueError` escapes `update_shape_text` instead of being
swallowed; the same frame updated in bullet-preserving mode succeeds
silently. -/
theorem single_mode_color_failure_not_swallowed :
    (updateTextFrame tfC3 "Hi".data true).2 = Except.error rgbSetterTypeError ∧
    (updateTextFrame tfC3 "A\nB".data true).2
      = Except.ok { success := true
                    warnings := []
                    original_length := some 3
                    new_length := some 3 } :=
  ⟨rfl, rfl⟩

/-- C5: whenever `update_shape_text` returns a result, that result carries
exactly one overflow warning when `2 * len(new_text) > 3 * len(original)`
(that is, `len(new_text) > 1.5 * len(original)`) and none otherwise. -/
theorem overflow_warning_threshold (tf : TextFrame) (new_text : List Char) (pb : Bool)
    (tf2 : TextFrame) (res : ShapeResult)
    (h : updateTextFrame tf new_text pb = (tf2, Except.ok res)) :
    res.warnings = (if 2 * new_text.length > 3 * tf.text.length then
        [overflowWarning new_text.length tf.text.length] else []) ∧
    res.warnings.length
      = (if 2 * new_text.length > 3 * tf.text.length then 1 else 0) := by
  have hw : res.warnings = (if 2 * new_text.length > 3 * tf.text.length then
      [overflowWarning new_text.length tf.text.length] else []) := by
    simp only [updateTextFrame] at h
    split at h
    · split at h
      · simp at h
      · injection h with h1 h2
        injection h2 with h3
        rw [← h3]
    · split at h
      · simp at h
      · split at h
        · simp at h
        · injection h with h1 h2
          injection h2 with h3
          rw [← h3]
  refine ⟨hw, ?_⟩
  rw [hw]
  split <;> rfl

/-- Witness for C5: original length 10, new length 16, one warning. -/
theorem overflow_warning_threshold_witness :
    updateTextFrame tfW5 newW5 false = (tfW5out, Except.ok resW5) ∧
    (resW5.warnings = (if 2 * newW5.length > 3 * tfW5.text.length then
        [overflowWarning newW5.length tfW5.text.length] else []) ∧
      resW5.warnings.length
        = (if 2 * newW5.length > 3 * tfW5.text.length then 1 else 0)) :=
  ⟨rfl, overflow_warning_threshold tfW5 newW5 false tfW5out resW5 rfl⟩

/-- C7: in single-paragraph mode (preserve_bullets false, or no line break
in the new text) only the first paragraph changes: the trailing paragraphs
— runs, text and formatting — are returned unchanged. -/
theorem single_mode_preserves_trailing_paragraphs (tf : TextFrame) (fp : Paragraph)
    (rest : List Paragraph) (new_text : List Char) (preserve_bullets : Bool)
    (hp : tf.paragraphs = fp :: rest)
    (hm : preserve_bullets = false ∨ hasNl new_text = false) :
    ∃ fp2, (updateTextFrame tf new_text preserve_bullets).1.paragraphs = fp2 :: rest := by
  have hc : (preserve_bullets && hasNl new_text) = false := by
    rcases hm with h | h <;> simp [h]
  exact ⟨_, by rw [updateTextFrame_single tf new_text preserve_bullets fp rest hp hc]⟩

/-- Witness for C7: a two-paragraph frame updated with
`preserve_bullets = false` keeps its second paragraph unchanged. -/
theorem single_mode_preserves_trailing_paragraphs_witness :
    tfW7.paragraphs = { runs := [{ text := "One".data }] } ::
      [{ runs := [{ text := "Two".data }], level := 3 }] ∧
    ((false = false) ∨ hasNl "New".data = false) ∧
    (∃ fp2, (updateTextFrame tfW7 "New".data false).1.paragraphs
      = fp2 :: [{ runs := [{ text := "Two".data }], level := 3 }]) :=
  ⟨rfl, Or.inl rfl,
    single_mode_preserves_trailing_paragraphs tfW7 _ _ _ false rfl (Or.inl rfl)⟩

/-- C8: applying the same shape-text update twice yields the same
extracted text as applying it once — the second application replaces
rather than appends. -/
theorem update_idempotent_text (tf : TextFrame) (new_text : List Char) (pb : Bool) :
    ((updateTextFrame (updateTextFrame tf new_text pb).1 new_text pb).1).text
      = ((updateTextFrame tf new_text pb).1).text := by
  cases htf : tf.paragraphs with
  | nil =>
    rw [updateTextFrame_empty tf new_text pb htf]
    rw [updateTextFrame_empty tf new_text pb htf]
  | cons fp rest =>
    have h1 := update_paragraph_texts tf new_text pb fp rest htf
    cases hc : pb && hasNl new_text with
    | false =>
      rw [hc] at h1
      simp only [Bool.false_eq_true, if_false] at h1
      have hstruct := updateTextFrame_single tf new_text pb fp rest htf hc
      have hp2 : (updateTextFrame tf new_text pb).1.paragraphs
          = { fp with runs :=
              [{ text := new_text, font := applyBasicFont (captureSnapshot tf) {} }] }
            :: rest := by
        rw [hstruct]
      have h2 := update_paragraph_texts _ new_text pb _ rest hp2
      rw [hc] at h2
      simp only [Bool.false_eq_true, if_false] at h2
      unfold TextFrame.text
      rw [h1, h2]
    | true =>
      rw [hc] at h1
      simp only [if_true] at h1
      obtain ⟨l0, ls, hs⟩ := splitNl_exists_cons new_text
      have hstruct := updateTextFrame_bullet tf new_text pb fp rest l0 ls htf hc hs
      have h2 := update_paragraph_texts _ new_text pb _ _ hstruct
      rw [hc] at h2
      simp only [if_true] at h2
      unfold TextFrame.text
      rw [h1, h2]

/-! ### Lemmas about the update dispatcher -/

theorem report_add_empty (r : Report) : r.add {} = r := by
  cases r; simp [Report.add]

theorem report_add_assoc (r a b : Report) : (r.add a).add b = r.add (a.add b) := by
  cases r; cases a; cases b; simp [Report.add, Nat.add_assoc]

/-- The per-cell loop only appends to the report it is given. -/
theorem processCells_acc (sn si : Int) :
    ∀ (cs : List CellUpdate) (tbl : Table) (r d : Report),
      processCells sn si tbl (r.add d) cs
        = ((processCells sn si tbl d cs).1, r.add (processCells sn si tbl d cs).2) := by
  intro cs
  induction cs with
  | nil => intro tbl r d; simp [processCells]
  | cons c cs ih =>
    intro tbl r d
    simp only [processCells]
    cases hU : update_table_cell tbl c.row c.col c.text with
    | mk tbl' cres =>
      cases hs : cres.success
      · simp only [Bool.false_eq_true, if_false]
        have e : { (r.add d) with errors := (r.add d).errors ++ [cellErrMsg sn si cres] }
            = r.add { d with errors := d.errors ++ [cellErrMsg sn si cres] } := by
          cases r; cases d; simp [Report.add]
        rw [e, ih]
      · simp only [if_true]
        have e : { (r.add d) with updates_applied := (r.add d).updates_applied + 1 }
            = r.add { d with updates_applied := d.updates_applied + 1 } := by
          cases r; cases d; simp [Report.add, Nat.add_assoc]
        rw [e, ih]

theorem processCells_shift (sn si : Int) (cs : List CellUpdate) (tbl : Table) (r : Report) :
    processCells sn si tbl r cs
      = ((processCells sn si tbl {} cs).1, r.add (processCells sn si tbl {} cs).2) := by
  have h := processCells_acc sn si cs tbl r {}
  rwa [report_add_empty] at h

/-- One instruction never reads the report accumulated so far: it only
adds a delta to it. -/
theorem processInstr_shift (p : Pres) (u : Instr) (r : Report) :
    processInstr p r u = (processInstr p {} u).map (fun x => (x.1, r.add x.2)) := by
  unfold processInstr
  cases u.slide.toInt? with
  | none => rfl
  | some sn =>
    by_cases h1 : sn < 1 ∨ (p.slides.length : Int) < sn
    · simp only [if_pos h1, Except.map]
      cases r
      simp [Report.add]
    · simp only [if_neg h1]
      cases hg : p.slides.get? (sn - 1).toNat with
      | none => rfl
      | some slide =>
        cases u.shape.toInt? with
        | none => rfl
        | some k =>
          by_cases h2 : k < 1 ∨ (slide.shapes.length : Int) < k
          · simp only [if_pos h2, Except.map]
            cases r
            simp [Report.add]
          · simp only [if_neg h2]
            cases hgs : slide.shapes.get? (k - 1).toNat with
            | none => rfl
            | some shape =>
              cases shape with
              | tableShape tbl =>
                cases hc : u.table_cells with
                | nil =>
                  dsimp only
                  cases r
                  simp [Report.add, update_shape_text, Except.map]
                | cons cu cus =>
                  dsimp only
                  rw [processCells_shift sn k (cu :: cus) tbl r]
                  cases hP : processCells sn k tbl {} (cu :: cus) with
                  | mk tbl2 r2 => simp [Except.map]
              | textShape tf =>
                dsimp only
                cases hU : updateTextFrame tf u.text u.preserve_bullets with
                | mk tf2 exc =>
                  cases exc with
                  | error e => simp [update_shape_text, hU, Except.map]
                  | ok res =>
                    cases hrs : res.success
                    · simp only [update_shape_text, hU, Bool.false_eq_true, if_false,
                        Except.map]
                      cases r
                      simp [Report.add, hrs]
                    · simp only [update_shape_text, hU, if_true, Except.map]
                      cases r
                      simp [Report.add, hrs]
              | other =>
                dsimp only
                cases r
                simp [Report.add, update_shape_text, Except.map]

theorem applyLoop_shift :
    ∀ (l : List Instr) (p : Pres) (r : Report),
      applyLoop p r l = (applyLoop p {} l).map (fun x => (x.1, r.add x.2)) := by
  intro l
  induction l with
  | nil => intro p r; simp [applyLoop, Except.map, report_add_empty]
  | cons u rest ih =>
    intro p r
    simp only [applyLoop]
    rw [processInstr_shift p u r]
    cases hP : processInstr p {} u with
    | error e => simp [Except.map]
    | ok x =>
      obtain ⟨p', d⟩ := x
      simp only [Except.map]
      rw [ih p' (r.add d), ih p' d]
      cases hD : applyLoop p' {} rest with
      | error e => simp [Except.map]
      | ok y => simp [Except.map, report_add_assoc]

theorem applyLoop_append :
    ∀ (l1 l2 : List Instr) (p : Pres) (r : Report),
      applyLoop p r (l1 ++ l2)
        = (applyLoop p r l1).bind (fun x => applyLoop x.1 x.2 l2) := by
  intro l1
  induction l1 with
  | nil => intro l2 p r; simp [applyLoop, Except.bind]
  | cons u rest ih =>
    intro l2 p r
    simp only [List.cons_append, applyLoop]
    cases processInstr p r u with
    | error e => simp [Except.bind]
    | ok x => exact ih l2 x.1 x.2

theorem skel_setShape (p : Pres) (si shi : Nat) (s : Shape) :
    skel (p.setShape si shi s) = skel p := by
  unfold skel Pres.setShape
  rw [list_map_set]
  simp only [List.length_set]
  have h2 := list_getD_map (fun sl : Slide => sl.shapes.length) p.slides si { shapes := [] }
  dsimp only at h2
  rw [← h2, list_set_getD_self]

/-- Every presentation returned by one instruction step either is the
input presentation or has exactly one shape written back. -/
theorem processInstr_pres (p : Pres) (r : Report) (u : Instr) (p' : Pres) (r' : Report)
    (h : processInstr p r u = Except.ok (p', r')) :
    p' = p ∨ ∃ i j s, p' = Pres.setShape p i j s := by
  unfold processInstr at h
  repeat' split at h
  all_goals
    first
      | (simp only [Except.ok.injEq, Prod.mk.injEq] at h
         first
           | exact Or.inl h.1.symm
           | exact Or.inr ⟨_, _, _, h.1.symm⟩)
      | simp at h

theorem processInstr_skel (p : Pres) (r : Report) (u : Instr) (p' : Pres) (r' : Report)
    (h : processInstr p r u = Except.ok (p', r')) : skel p' = skel p := by
  rcases processInstr_pres p r u p' r' h with h1 | ⟨i, j, s, h1⟩
  · rw [h1]
  · rw [h1, skel_setShape]

theorem applyLoop_skel :
    ∀ (l : List Instr) (p : Pres) (r : Report) (p' : Pres) (r' : Report),
      applyLoop p r l = Except.ok (p', r') → skel p' = skel p := by
  intro l
  induction l with
  | nil =>
    intro p r p' r' h
    simp only [applyLoop, Except.ok.injEq, Prod.mk.injEq] at h
    rw [← h.1]
  | cons u rest ih =>
    intro p r p' r' h
    simp only [applyLoop] at h
    cases hP : processInstr p r u with
    | error e => rw [hP] at h; exact absurd h (by simp)
    | ok x =>
      rw [hP] at h
      rw [ih x.1 x.2 p' r' h, processInstr_skel p r u x.1 x.2 (by rw [hP])]

theorem list_getD_eq_get? (l : List α) (n : Nat) (d : α) :
    l.getD n d = (l.get? n).getD d := by
  simp [List.getD, List.get?_eq_getElem?]

/-- Writing a shape back at the position it was read from leaves the
presentation tree unchanged. -/
theorem setShape_self (p : Pres) (si shi : Nat) (slide : Slide) (shape : Shape)
    (hget : p.slides.get? si = some slide)
    (hgs : slide.shapes.get? shi = some shape) :
    p.setShape si shi shape = p := by
  unfold Pres.setShape
  have hgd : p.slides.getD si { shapes := [] } = slide := by
    rw [list_getD_eq_get?, hget]
    rfl
  rw [hgd]
  show ({ slides := p.slides.set si { shapes := slide.shapes.set shi shape } } : Pres) = p
  have hsh : slide.shapes.set shi shape = slide.shapes := by
    have h2 : slide.shapes.getD shi shape = shape := by
      rw [list_getD_eq_get?, hgs]
      rfl
    have h3 := list_set_getD_self slide.shapes shi shape
    rw [h2] at h3
    exact h3
  rw [hsh]
  have h4 : ({ shapes := slide.shapes } : Slide) = slide := rfl
  rw [h4]
  have hset : p.slides.set si slide = p.slides := by
    have h5 : p.slides.getD si slide = slide := by
      rw [list_getD_eq_get?, hget]
      rfl
    have h6 := list_set_getD_self p.slides si slide
    rw [h5] at h6
    exact h6
  rw [hset]

/-- An out-of-range (but integer) slide or shape index makes the step
append exactly its error message, touching nothing else. -/
theorem processInstr_outOfRange (p : Pres) (u : Instr) (m : String) (r : Report)
    (h : OutOfRangeMsg p u m) :
    processInstr p r u = Except.ok (p, { r with errors := r.errors ++ [m] }) := by
  rcases h with ⟨s, hs, hrange, hm⟩ | ⟨s, k, slide, hs, hnr, hget, hk, hrange, hm⟩
  · unfold processInstr
    rw [hs]
    simp only [JVal.toInt?]
    rw [if_pos hrange, hm]
  · unfold processInstr
    rw [hs]
    simp only [JVal.toInt?]
    rw [if_neg hnr]
    simp only [hget]
    rw [hk]
    simp only [JVal.toInt?]
    rw [if_pos hrange, hm]

/-- Being out of range only depends on the slide/shape counts, which
instruction processing preserves. -/
theorem outOfRangeMsg_transfer (p p1 : Pres) (u : Instr) (m : String)
    (hsk : skel p1 = skel p) (h : OutOfRangeMsg p u m) : OutOfRangeMsg p1 u m := by
  have hlen : p1.slides.length = p.slides.length := by
    have h1 := congrArg List.length hsk
    simpa [skel] using h1
  rcases h with ⟨s, hs, hrange, hm⟩ | ⟨s, k, slide, hs, hnr, hget, hk, hrange, hm⟩
  · refine Or.inl ⟨s, hs, ?_, ?_⟩
    · rw [hlen]; exact hrange
    · rw [hlen]; exact hm
  · have hmap : (skel p1).get? (s - 1).toNat = (skel p).get? (s - 1).toNat := by rw [hsk]
    unfold skel at hmap
    rw [List.get?_map, List.get?_map, hget] at hmap
    cases hg1 : p1.slides.get? (s - 1).toNat with
    | none => rw [hg1] at hmap; simp at hmap
    | some slide1 =>
      rw [hg1] at hmap
      have hlen2 : slide1.shapes.length = slide.shapes.length := by
        simpa using hmap
      refine Or.inr ⟨s, k, slide1, hs, ?_, hg1, hk, ?_, ?_⟩
      · rw [hlen]; exact hnr
      · rw [hlen2]; exact hrange
      · rw [hlen2]; exact hm

/-- C4: an instruction whose integer slide or shape index is out of range
appends exactly one error entry, leaves `updates_applied`, the warnings
and the document untouched, and every other instruction of the batch is
processed exactly as it would be without it. -/
theorem invalid_index_isolated (p : Pres) (u : Instr) (m : String)
    (h : OutOfRangeMsg p u m) :
    (∀ r : Report, processInstr p r u = Except.ok (p, { r with errors := r.errors ++ [m] })) ∧
    (∀ (pre post : List Instr) (p1 : Pres) (r1 : Report),
      applyLoop p {} pre = Except.ok (p1, r1) →
      apply_updates p (pre ++ u :: post) =
        (apply_updates p (pre ++ post)).map (fun x =>
          (x.1, { updates_applied := x.2.updates_applied,
                  errors := r1.errors ++ m :: x.2.errors.drop r1.errors.length,
                  warnings := x.2.warnings }))) := by
  constructor
  · intro r
    exact processInstr_outOfRange p u m r h
  · intro pre post p1 r1 hpre
    have hsk : skel p1 = skel p := applyLoop_skel pre p {} p1 r1 hpre
    have h1 : OutOfRangeMsg p1 u m := outOfRangeMsg_transfer p p1 u m hsk h
    unfold apply_updates
    rw [applyLoop_append pre (u :: post) p {}, applyLoop_append pre post p {}, hpre]
    simp only [Except.bind]
    have hstep := processInstr_outOfRange p1 u m r1 h1
    simp only [applyLoop, hstep]
    rw [applyLoop_shift post p1 { r1 with errors := r1.errors ++ [m] },
        applyLoop_shift post p1 r1]
    cases hD : applyLoop p1 {} post with
    | error e => simp [Except.map]
    | ok y =>
      cases r1 with
      | mk ua es ws =>
        simp [Except.map, Report.add, List.drop_left]

/-- Witness for C4: slide 5 of a one-slide presentation. -/
theorem invalid_index_isolated_witness :
    OutOfRangeMsg pW4 uW4 (slideErrMsg 5 1) ∧
    processInstr pW4 {} uW4 = Except.ok (pW4,
      { updates_applied := 0, errors := [slideErrMsg 5 1], warnings := [] }) :=
  ⟨Or.inl ⟨5, rfl, by decide, rfl⟩,
    (invalid_index_isolated pW4 uW4 (slideErrMsg 5 1) (Or.inl ⟨5, rfl, by decide, rfl⟩)).1 {}⟩

/-- C6: a failing cell update appends exactly one error entry naming its
`(row,col)` and does not change `updates_applied`, the loop continues
with the remaining cells of the same table, each processed cell accounts
for exactly one success or one error, and every cell result names its
`(row,col)`. -/
theorem table_cell_isolation (sn si : Int) (tbl : Table) (r : Report)
    (cu : CellUpdate) (cs : List CellUpdate)
    (hfail : (update_table_cell tbl cu.row cu.col cu.text).2.success = false) :
    processCells sn si tbl r (cu :: cs) =
      processCells sn si (update_table_cell tbl cu.row cu.col cu.text).1
        { r with errors := r.errors ++
            [cellErrMsg sn si (update_table_cell tbl cu.row cu.col cu.text).2] } cs ∧
    (∀ (tbl2 : Table) (r2 : Report) (cs2 : List CellUpdate),
      (processCells sn si tbl2 r2 cs2).2.updates_applied
          + ((processCells sn si tbl2 r2 cs2).2.errors).length
        = r2.updates_applied + r2.errors.length + cs2.length) ∧
    (∀ (tbl2 : Table) (row col : Int) (txt : List Char),
      (update_table_cell tbl2 row col txt).2.cell = cellRef row col) := by
  refine ⟨?_, ?_, ?_⟩
  · simp only [processCells]
    cases hU : update_table_cell tbl cu.row cu.col cu.text with
    | mk tbl' cres =>
      rw [hU] at hfail
      simp only at hfail
      simp [hfail]
  · intro tbl2 r2 cs2
    induction cs2 generalizing tbl2 r2 with
    | nil => simp [processCells]
    | cons c cs ih =>
      simp only [processCells]
      cases hU : update_table_cell tbl2 c.row c.col c.text with
      | mk tbl' cres =>
        cases hs : cres.success
        · simp only [Bool.false_eq_true, if_false]
          rw [ih]
          simp
          omega
        · simp only [if_true]
          rw [ih]
          simp
          omega
  · intro tbl2 row col txt
    simp only [update_table_cell]
    split
    · rfl
    · split
      · rfl
      · split
        · rfl
        · split
          · rfl
          · rfl

/-- Witness for C6: the spec's example, one out-of-range column next to a
valid cell update. -/
theorem table_cell_isolation_witness :
    (update_table_cell tblW6 cuBad.row cuBad.col cuBad.text).2.success = false ∧
    processCells 1 2 tblW6 {} (cuBad :: [cuGood]) =
      processCells 1 2 (update_table_cell tblW6 cuBad.row cuBad.col cuBad.text).1
        { updates_applied := 0
          errors := [cellErrMsg 1 2 (update_table_cell tblW6 cuBad.row cuBad.col cuBad.text).2]
          warnings := [] } [cuGood] :=
  ⟨rfl, (table_cell_isolation 1 2 tblW6 {} cuBad [cuGood] rfl).1⟩

/-- C9 counterexample: a batch whose first instruction has a missing
slide field aborts with an uncaught `TypeError`; the following
well-formed instruction is never processed and no error list is ever
produced. -/
theorem malformed_instruction_counterexample :
    apply_updates pC9 [uBadC9, uGoodC9] = Except.error typeErrorMsg := rfl

/-- C9 amended: an instruction whose slide field — or, with a valid slide,
whose shape field — is missing or not an integer is not recovered: the
bounds comparison raises a `TypeError` that aborts the whole run, whatever
instructions remain. -/
theorem malformed_instruction_aborts (p : Pres) (r : Report) (u : Instr) (rest : List Instr)
    (h : u.slide.toInt? = none ∨
      (∃ s, u.slide = JVal.int s ∧ ¬(s < 1 ∨ (p.slides.length : Int) < s) ∧
        u.shape.toInt? = none)) :
    applyLoop p r (u :: rest) = Except.error typeErrorMsg := by
  rcases h with h | ⟨s, hs, hnr, hk⟩
  · simp [applyLoop, processInstr, h]
  · have hlt : (s - 1).toNat < p.slides.length := by
      push_neg at hnr
      omega
    obtain ⟨slide, hget⟩ : ∃ sl, p.slides.get? (s - 1).toNat = some sl := by
      rw [List.get?_eq_get hlt]
      exact ⟨_, rfl⟩
    rcases hksplit : u.shape with n | _ | t
    · rw [hksplit] at hk
      simp [JVal.toInt?] at hk
    · simp only [applyLoop, processInstr, hs, hksplit, JVal.toInt?]
      rw [if_neg hnr]
      simp only [hget]
    · simp only [applyLoop, processInstr, hs, hksplit, JVal.toInt?]
      rw [if_neg hnr]
      simp only [hget]

/-- Witness for the amended C9. -/
theorem malformed_instruction_aborts_witness :
    (uBadC9.slide.toInt? = none ∨
      (∃ s, uBadC9.slide = JVal.int s ∧ ¬(s < 1 ∨ (pC9.slides.length : Int) < s) ∧
        uBadC9.shape.toInt? = none)) ∧
    applyLoop pC9 {} (uBadC9 :: [uGoodC9]) = Except.error typeErrorMsg :=
  ⟨Or.inl rfl, malformed_instruction_aborts pC9 {} uBadC9 [uGoodC9] (Or.inl rfl)⟩

/-- C10: a resolved shape without a text frame (a table with no
`table_cells` entries, or any other non-text shape) yields exactly one
error entry `"Slide N, Shape M: Shape has no text frame"`, does not touch
`updates_applied` or the document, and the loop continues with the next
instruction. -/
theorem no_text_frame_error (p : Pres) (r : Report) (u : Instr) (slide_num shape_idx : Int)
    (slide : Slide) (shape : Shape)
    (hs : u.slide = JVal.int slide_num) (hk : u.shape = JVal.int shape_idx)
    (h1 : ¬(slide_num < 1 ∨ (p.slides.length : Int) < slide_num))
    (hget : p.slides.get? (slide_num - 1).toNat = some slide)
    (h2 : ¬(shape_idx < 1 ∨ (slide.shapes.length : Int) < shape_idx))
    (hgs : slide.shapes.get? (shape_idx - 1).toNat = some shape)
    (hnotf : ((∃ tbl, shape = Shape.tableShape tbl) ∧ u.table_cells = [])
      ∨ shape = Shape.other) :
    processInstr p r u = Except.ok (p,
      { r with errors := r.errors ++
          [shapeQualMsg slide_num shape_idx "Shape has no text frame"] }) ∧
    ∀ rest, applyLoop p r (u :: rest) =
      applyLoop p { r with errors := r.errors ++
          [shapeQualMsg slide_num shape_idx "Shape has no text frame"] } rest := by
  have hself : p.setShape (slide_num - 1).toNat (shape_idx - 1).toNat shape = p :=
    setShape_self p _ _ slide shape hget hgs
  have hmain : processInstr p r u = Except.ok (p,
      { r with errors := r.errors ++
          [shapeQualMsg slide_num shape_idx "Shape has no text frame"] }) := by
    unfold processInstr
    rw [hs]
    simp only [JVal.toInt?]
    rw [if_neg h1]
    simp only [hget]
    rw [hk]
    simp only [JVal.toInt?]
    rw [if_neg h2]
    simp only [hgs]
    rcases hnotf with ⟨⟨tbl, rfl⟩, hcells⟩ | rfl
    · rw [hcells]
      dsimp only
      simp only [update_shape_text]
      split
      · next hcond => exact absurd hcond (by simp)
      · rw [hself]
        rfl
    · dsimp only
      simp only [update_shape_text]
      split
      · next hcond => exact absurd hcond (by simp)
      · rw [hself]
        rfl
  refine ⟨hmain, fun rest => ?_⟩
  simp only [applyLoop, hmain]

/-- Witness for C10: a table shape addressed with no `table_cells`. -/
theorem no_text_frame_error_witness :
    uW10.slide = JVal.int 1 ∧ uW10.shape = JVal.int 1 ∧
    ¬((1 : Int) < 1 ∨ (pW10.slides.length : Int) < 1) ∧
    pW10.slides.get? ((1 : Int) - 1).toNat
      = some { shapes := [Shape.tableShape { rows := [] }] } ∧
    ¬((1 : Int) < 1 ∨
      ((({ shapes := [Shape.tableShape { rows := [] }] } : Slide).shapes.length : Int) < 1)) ∧
    ({ shapes := [Shape.tableShape { rows := [] }] } : Slide).shapes.get? ((1 : Int) - 1).toNat
      = some (Shape.tableShape { rows := [] }) ∧
    processInstr pW10 {} uW10 = Except.ok (pW10,
      { updates_applied := 0, errors := [shapeQualMsg 1 1 "Shape has no text frame"],
        warnings := [] }) :=
  ⟨rfl, rfl, by decide, rfl, by decide, rfl,
    (no_text_frame_error pW10 {} uW10 1 1 _ _ rfl rfl (by decide) rfl (by decide) rfl
      (Or.inl ⟨⟨{ rows := [] }, rfl⟩, rfl⟩)).1⟩

end PptxUpdate
